import Mathlib

/-!
Verification of the broccoli declarative CLI argument binder.

This file gives a shallow embedding of the core of the package: the
command schema (`command`, `fieldMeta`), the value-coercion routine
(`setValue`, mirroring the Go `setValue` with its radix sniffing and
comma-split sequence handling), the binding engine (`scanFlags`,
`resolveFlags`, `bindCommand`, `Bind`, mirroring `bindCommand` and
`App.Bind`), and the memoized help renderer (`renderHelp`,
`initCommand`, mirroring `command.init`).

Modelling conventions:
- Go strings are `List Char` (`Str`); `strings.HasPrefix` is
  `List.isPrefixOf`, `s[2:]` is `List.drop 2 s`, byte lengths are char
  counts (all schema text in scope is ASCII).
- Reflection values are the inductive `Value`; struct instances are
  `Value.vsub` over a positional field list, written by index exactly
  as the binder writes through `Field(Index)`.  Pointer indirection
  auto-allocates in the Go code, so a pointer and its pointee collapse
  to one `Value` here; the zero instance is always materialized.
- `reflect.Value.CanSet` is always true in the model (the binder only
  writes exported fields it indexed); the `errCanNotSet` branches are
  kept because the Go code branches on them.
- The environment is a association-list oracle (`EnvT`), matching the
  spec treatment of `os.LookupEnv` as a key to optional-string oracle.
- Float-kind fields are outside the formalization (no claim touches
  them); every other kind of the Go `setValue` switch is embedded,
  including the absence of a `reflect.Bool` case in that switch.
-/

namespace Broccoli

/-- Go strings, modelled as lists of characters. -/
abbrev Str := List Char

/-- Conversion from a Lean string literal to the `Str` model. -/
def str (s : String) : Str := s.data

/-- `strings.HasPrefix s p` from the Go standard library. -/
def hasPfx (p : Str) (s : Str) : Bool := p.isPrefixOf s

/-- `strings.TrimPrefix(name, "!")` as used in `bindCommand`. -/
def trimBang (s : Str) : Str := if hasPfx (str ("!")) s then s.drop 1 else s

/-- Whether a string starts with the character `'!'`. -/
def headBang : Str → Bool
  | [] => false
  | c :: _ => '!' == c

/-- Whether a string starts with the character `'-'`. -/
def headDash : Str → Bool
  | [] => false
  | c :: _ => '-' == c

/-- `strings.Split(s, ",")`: split on commas, keeping empty segments;
the result is never empty (`Split("",",") = [""]`). -/
def splitComma : Str → List Str
  | [] => [[]]
  | c :: rest =>
    let r := splitComma rest
    if c == ',' then [] :: r
    else
      match r with
      | h :: t => (c :: h) :: t
      | [] => [[c]]

/-- A run of `n` spaces (help-text padding loops). -/
def spaces (n : Nat) : Str := List.replicate n ' '

/-- `strings.ToUpper` restricted to the ASCII schema names in scope. -/
def strUpper (s : Str) : Str := s.map Char.toUpper

/-! ### Go `strconv` parsing primitives -/

/-- The value of one digit character under `strconv` conventions:
`0`-`9`, then `a`-`z` / `A`-`Z` for values 10 and up. -/
def digitVal (c : Char) : Option Nat :=
  if '0' ≤ c ∧ c ≤ '9' then some (c.toNat - ('0').toNat)
  else if 'a' ≤ c ∧ c ≤ 'z' then some (c.toNat - ('a').toNat + 10)
  else if 'A' ≤ c ∧ c ≤ 'Z' then some (c.toNat - ('A').toNat + 10)
  else none

/-- Accumulate digits of base `b`; fails on any invalid digit. -/
def parseDigitsAux (b : Nat) (acc : Nat) : Str → Option Nat
  | [] => some acc
  | c :: cs =>
    match digitVal c with
    | some d => if d < b then parseDigitsAux b (acc * b + d) cs else none
    | none => none

/-- A non-empty all-digits string of base `b`, as a natural number. -/
def parseDigits (b : Nat) (s : Str) : Option Nat :=
  if s.isEmpty then none else parseDigitsAux b 0 s

/-- `strconv.ParseInt(s, b, 64)`: optional sign, digits of base `b`
(the base is given explicitly, so no prefix handling happens here),
64-bit signed range check. -/
def goParseInt (b : Nat) (s : Str) : Option Int :=
  match s with
  | '+' :: rest =>
    (parseDigits b rest).bind fun n =>
      if (n : Int) ≤ 2 ^ 63 - 1 then some (n : Int) else none
  | '-' :: rest =>
    (parseDigits b rest).bind fun n =>
      if (n : Int) ≤ 2 ^ 63 then some (-(n : Int)) else none
  | _ =>
    (parseDigits b s).bind fun n =>
      if (n : Int) ≤ 2 ^ 63 - 1 then some (n : Int) else none

/-- `strconv.ParseUint(s, b, 64)`: no sign permitted, 64-bit range. -/
def goParseUint (b : Nat) (s : Str) : Option Nat :=
  (parseDigits b s).bind fun n =>
    if n ≤ 2 ^ 64 - 1 then some n else none

/-- `strconv.ParseBool`: the twelve accepted literals. -/
def goParseBool (s : Str) : Option Bool :=
  if s = str ("1") ∨ s = str ("t") ∨ s = str ("T") ∨ s = str ("TRUE") ∨
      s = str ("true") ∨ s = str ("True") then some true
  else if s = str ("0") ∨ s = str ("f") ∨ s = str ("F") ∨ s = str ("FALSE") ∨
      s = str ("false") ∨ s = str ("False") then some false
  else none

/-- The signed-integer branch of the Go `setValue` switch: radix is
sniffed from `0x`/`0b`/`0o` prefixes (also behind a `+`/`-` sign), and
then `value[2:]` is handed to `ParseInt` with the sniffed base. -/
def parseIntTok (v : Str) : Option Int :=
  if hasPfx (str ("0x")) v ∨ hasPfx (str ("0X")) v ∨
      hasPfx (str ("-0x")) v ∨ hasPfx (str ("-0X")) v ∨
      hasPfx (str ("+0x")) v ∨ hasPfx (str ("+0X")) v then
    goParseInt 16 (v.drop 2)
  else if hasPfx (str ("0b")) v ∨ hasPfx (str ("0B")) v ∨
      hasPfx (str ("-0b")) v ∨ hasPfx (str ("-0B")) v ∨
      hasPfx (str ("+0b")) v ∨ hasPfx (str ("+0B")) v then
    goParseInt 2 (v.drop 2)
  else if hasPfx (str ("0o")) v ∨ hasPfx (str ("0O")) v ∨
      hasPfx (str ("-0o")) v ∨ hasPfx (str ("-0O")) v ∨
      hasPfx (str ("+0o")) v ∨ hasPfx (str ("+0O")) v then
    goParseInt 8 (v.drop 2)
  else goParseInt 10 v

/-- The unsigned-integer branch of the Go `setValue` switch; same radix
sniffing, delegating to `ParseUint`. -/
def parseUintTok (v : Str) : Option Nat :=
  if hasPfx (str ("0x")) v ∨ hasPfx (str ("0X")) v ∨
      hasPfx (str ("-0x")) v ∨ hasPfx (str ("-0X")) v ∨
      hasPfx (str ("+0x")) v ∨ hasPfx (str ("+0X")) v then
    goParseUint 16 (v.drop 2)
  else if hasPfx (str ("0b")) v ∨ hasPfx (str ("0B")) v ∨
      hasPfx (str ("-0b")) v ∨ hasPfx (str ("-0B")) v ∨
      hasPfx (str ("+0b")) v ∨ hasPfx (str ("+0B")) v then
    goParseUint 2 (v.drop 2)
  else if hasPfx (str ("0o")) v ∨ hasPfx (str ("0O")) v ∨
      hasPfx (str ("-0o")) v ∨ hasPfx (str ("-0O")) v ∨
      hasPfx (str ("+0o")) v ∨ hasPfx (str ("+0O")) v then
    goParseUint 8 (v.drop 2)
  else goParseUint 10 v

/-! ### Reflection values and `setValue` -/

/-- The scalar category of a field, as `reflect.Kind` groups them in
the `setValue` switch (ints of all widths collapse to one case, etc.).
`klist` carries the element kind, as a Go slice type carries its
element type. -/
inductive VKind where
  | kstr
  | kint
  | kuint
  | kbool
  | klist (e : VKind)

/-- A reflection value: one field of a bound instance.  `vsub` is a
nested struct instance (a subcommand target), listed by field index. -/
inductive Value where
  | vstr (s : Str)
  | vint (i : Int)
  | vuint (n : Nat)
  | vbool (b : Bool)
  | vlist (ek : VKind) (elems : List Value)
  | vsub (fields : List Value)

/-- The zero value of a kind (what `reflect.MakeSlice` fills fresh
slice elements with). -/
def VKind.zero : VKind → Value
  | .kstr => .vstr []
  | .kint => .vint 0
  | .kuint => .vuint 0
  | .kbool => .vbool false
  | .klist e => .vlist e []

/-- The two sentinel errors of the Go `setValue`
(`errCanNotParse`, `errCanNotSet`). -/
inductive setErr where
  | canNotParse
  | canNotSet

/-- The element loop of the slice case of `setValue`: coerce each
split segment in order; the first element failure aborts the loop and
is returned as the failure of the whole slice assignment. -/
def setElemsWith (f : Str → Except setErr Value) : List Str → Except setErr (List Value)
  | [] => .ok []
  | p :: ps =>
    match f p with
    | .error e => .error e
    | .ok v =>
      match setElemsWith f ps with
      | .error e => .error e
      | .ok vs => .ok (v :: vs)

/-- Element-level coercion, indexed by the element kind (in Go the
recursive `setValue` call dispatches on the element's `reflect.Kind`).
Fresh slice elements come from `MakeSlice` zeros, so the bool case --
absent from the Go switch -- leaves the zero `false` in place. -/
def setValueK : VKind → Str → Except setErr Value
  | .kstr, v => .ok (.vstr v)
  | .kint, v =>
    match parseIntTok v with
    | some n => .ok (.vint n)
    | none => .error .canNotParse
  | .kuint, v =>
    match parseUintTok v with
    | some n => .ok (.vuint n)
    | none => .error .canNotParse
  | .kbool, _ => .ok (.vbool false)
  | .klist ek, v =>
    match setElemsWith (fun p => setValueK ek p) (splitComma v) with
    | .error e => .error e
    | .ok vs => .ok (.vlist ek vs)

/-- The Go `setValue(dst, value)`: pointer indirection is already
collapsed in the model, `CanSet` always holds for indexed fields, and
the switch dispatches on the destination's kind.  The switch has no
`reflect.Bool` and no struct case, so those destinations are left
unchanged with a nil error.  The slice case splits on commas, resizes
to the split count (fresh zero elements), and coerces each element by
position, aborting on the first element failure. -/
def setValue : Value → Str → Except setErr Value
  | .vstr _, v => .ok (.vstr v)
  | .vint _, v =>
    match parseIntTok v with
    | some n => .ok (.vint n)
    | none => .error .canNotParse
  | .vuint _, v =>
    match parseUintTok v with
    | some n => .ok (.vuint n)
    | none => .error .canNotParse
  | .vbool b, _ => .ok (.vbool b)
  | .vsub fs, _ => .ok (.vsub fs)
  | .vlist ek _, v =>
    match setElemsWith (fun p => setValueK ek p) (splitComma v) with
    | .error e => .error e
    | .ok vs => .ok (.vlist ek vs)

/-! ### The command schema -/

/-- One flag descriptor (`fieldMeta` in the Go source). -/
structure fieldMeta where
  Name : Str
  Kind : Str
  About : Str
  Index : Nat
  Default : Option Str
  Env : Option Str
  Alias : Option Str
  Required : Bool

/-- One command schema node (`command` in the Go source).  The
`initOnce`/`Help` pair is modelled as `Help : Option Str` (`none` =
the once-gate has not fired); the `Parent` back-reference is replaced
by the ancestor-name path passed to `initCommand`/`renderHelp`. -/
inductive command where
  | mk (Command : Str) (Index : Nat)
      (Author About LongAbout Version : Option Str)
      (Flags : List fieldMeta) (SubCommands : List command)
      (Help : Option Str)

def command.Command : command → Str
  | .mk n _ _ _ _ _ _ _ _ => n

def command.Index : command → Nat
  | .mk _ i _ _ _ _ _ _ _ => i

def command.About : command → Option Str
  | .mk _ _ _ a _ _ _ _ _ => a

def command.Flags : command → List fieldMeta
  | .mk _ _ _ _ _ _ f _ _ => f

def command.SubCommands : command → List command
  | .mk _ _ _ _ _ _ _ s _ => s

def command.Help : command → Option Str
  | .mk _ _ _ _ _ _ _ _ h => h

/-- The environment oracle: `os.LookupEnv` over an association list. -/
abbrev EnvT := List (Str × Str)

/-- `os.LookupEnv`. -/
def lookupEnv (env : EnvT) (k : Str) : Option Str :=
  (env.find? (fun p => p.1 == k)).map (fun p => p.2)

/-- Binding failures (`ErrTypeMismatch`, `ErrHelp`, and the formatted
errors built with `fmt.Errorf` in `bindCommand`). -/
inductive BindErr where
  | typeMismatch
  | help
  | requiresKind (name kind : Str)
  | canNotParseArg (value kind : Str)
  | canNotParseEnv (envName value kind : Str)
  | canNotParseDefault (value kind : Str)
  | missingRequired (name : Str)

/-! ### The binding engine -/

/-- `dst.Field(i)` on a struct instance's field list.  An
out-of-range index panics in Go; schemas derived by `buildCommand`
only index declared fields, so the dummy default is never reached. -/
def getField (fields : List Value) (i : Nat) : Value :=
  fields.getD i (.vstr [])

/-- Whether a token enters the flag branch of the scan loop
(`strings.HasPrefix(tok, "--") || strings.HasPrefix(tok, "-")`). -/
def flagLooking (tok : Str) : Bool :=
  hasPfx (str ("--")) tok || hasPfx (str ("-")) tok

/-- The inner descriptor loop of the scan: the first flag whose `Name`
matches (for a `--`-prefixed token) or whose `Alias` matches (for a
`-`-prefixed token, which a `--` token also is). -/
def findFlag (flags : List fieldMeta) (hasLong hasShort : Bool) (name : Str) :
    Option fieldMeta :=
  flags.find? (fun f =>
    (hasLong && f.Name == name) || (hasShort && f.Alias == some name))

/-- Token classification of one flag-looking token: strip the dash
prefix, strip a leading `!`, and search the descriptors. -/
def matchTok (flags : List fieldMeta) (tok : Str) : Option fieldMeta :=
  let hasLong := hasPfx (str ("--")) tok
  let hasShort := hasPfx (str ("-")) tok
  let name0 := if hasLong then tok.drop 2 else tok.drop 1
  findFlag flags hasLong hasShort (trimBang name0)

/-- The raw (un-`!`-stripped) name of a flag-looking token, as the
scan's `rawName` variable. -/
def rawName (tok : Str) : Str :=
  if hasPfx (str ("--")) tok then tok.drop 2 else tok.drop 1

/-- The scan loop of `bindCommand` (lines 174-253 of the source).
`todo` is the unprocessed suffix of the argument list, `i` the Go loop
index pointing at `todo`'s head, `maxIdx` the Go `MaxIndex` variable
(initially 0, set to the index of the last token an iteration reached
its `skip` label with).  Returns the written fields, the
`WrittenFields` list, and the final `MaxIndex`.

Per flag-looking token: a matched bool-kind descriptor sets the field
from the `!`-prefix and records the canonical long name without
consuming a value token; any other matched descriptor consumes the
following token through `setValue` (failing the bind when there is
none, or on a parse error) and records the raw token; an unmatched
token fails with `ErrHelp` when it is literally `--help` or `-h` and
is skipped otherwise.  The first non-flag-looking token stops the
scan. -/
def scanFlags (flags : List fieldMeta) :
    List Str → Nat → List Value → List Str → Nat →
    Except BindErr (List Value × List Str × Nat)
  | [], _, fields, written, maxIdx => .ok (fields, written, maxIdx)
  | tok :: rest, i, fields, written, maxIdx =>
    if flagLooking tok then
      match matchTok flags tok with
      | some fm =>
        if fm.Kind == str ("bool") then
          scanFlags flags rest (i + 1)
            (fields.set fm.Index (.vbool (!headBang (rawName tok))))
            (written ++ [str ("--") ++ fm.Name]) i
        else
          match rest with
          | [] => .error (.requiresKind (trimBang (rawName tok)) fm.Kind)
          | value :: rest2 =>
            match setValue (getField fields fm.Index) value with
            | .error .canNotParse => .error (.canNotParseArg value fm.Kind)
            | .error .canNotSet =>
              scanFlags flags rest2 (i + 2) fields (written ++ [tok]) (i + 1)
            | .ok w =>
              scanFlags flags rest2 (i + 2) (fields.set fm.Index w)
                (written ++ [tok]) (i + 1)
      | none =>
        if tok == str ("--help") || tok == str ("-h") then .error .help
        else scanFlags flags rest (i + 1) fields written i
    else .ok (fields, written, maxIdx)
  termination_by structural todo _ _ _ _ => todo

/-- The resolution pass's membership test (lines 256-273): re-derive
from the recorded entry's dash prefix, comparing `--`-entries against
the canonical name and `-`-entries against the alias.  Every recorded
entry is dash-prefixed, so the Go `panic("unreachable")` arm is an
unreachable `false` here. -/
def writtenFound (written : List Str) (fm : fieldMeta) : Bool :=
  written.any fun w =>
    if hasPfx (str ("--")) w then w.drop 2 == fm.Name
    else if hasPfx (str ("-")) w then
      match fm.Alias with
      | some a => w.drop 1 == a
      | none => false
    else false

/-- Steps 2-3 of the resolution pass for one unwritten flag: declared
default, then the required check, then the zero value. -/
def resolveFlagDefault (fields : List Value) (fm : fieldMeta) :
    Except BindErr (List Value) :=
  match fm.Default with
  | some d =>
    match setValue (getField fields fm.Index) d with
    | .error .canNotParse => .error (.canNotParseDefault d fm.Kind)
    | .error .canNotSet => .ok fields
    | .ok w => .ok (fields.set fm.Index w)
  | none =>
    if fm.Required then .error (.missingRequired fm.Name) else .ok fields

/-- The resolution pass for one unwritten flag: a declared and present
environment variable wins (even over a declared default); otherwise
fall through to the default/required/zero steps. -/
def resolveFlag (env : EnvT) (fields : List Value) (fm : fieldMeta) :
    Except BindErr (List Value) :=
  match fm.Env with
  | some e =>
    match lookupEnv env e with
    | some val =>
      match setValue (getField fields fm.Index) val with
      | .error .canNotParse => .error (.canNotParseEnv e val fm.Kind)
      | .error .canNotSet => .ok fields
      | .ok w => .ok (fields.set fm.Index w)
    | none => resolveFlagDefault fields fm
  | none => resolveFlagDefault fields fm

/-- The resolution loop over every flag descriptor (lines 256-318):
skip flags found in the written set, resolve the rest in declaration
order, aborting on the first failure. -/
def resolveFlags (env : EnvT) (written : List Str) :
    List fieldMeta → List Value → Except BindErr (List Value)
  | [], fields => .ok fields
  | fm :: rest, fields =>
    if writtenFound written fm then resolveFlags env written rest fields
    else
      match resolveFlag env fields fm with
      | .error e => .error e
      | .ok fields' => resolveFlags env written rest fields'

/-- The flag phase of `bindCommand` once no subcommand matched: scan,
resolve, and return the remainder `args[MaxIndex+1:]` (or `args[0:]`
when `args` is empty). -/
def bindFlags (env : EnvT) (cmd : command) (args : List Str)
    (fields : List Value) : Except BindErr (List Str × Value) :=
  match scanFlags cmd.Flags args 0 fields [] 0 with
  | .error e => .error e
  | .ok (fields', written, maxIdx) =>
    match resolveFlags env written cmd.Flags fields' with
    | .error e => .error e
    | .ok fields'' =>
      if args.length = 0 then .ok (args, .vsub fields'')
      else .ok (args.drop (maxIdx + 1), .vsub fields'')

/-- The Go `bindCommand(cmd, args, dst)`.  The destination must strip
to a struct (`ErrTypeMismatch` otherwise; the `dst.Type() != cmd.Type`
check is subsumed by construction here, the model carrying no
`reflect.Type`).  When at least one token remains and it equals some
subcommand's name, binding recurses into the first such child with the
remaining tokens and the child's indexed sub-field, and the child's
writes are the only writes to the parent instance; otherwise the flag
phase runs at this level.  The matched node is returned alongside the
result, as the Go function returns it both on success and on error.
(`cmd.init()` at the top of the Go function only memoizes help text;
it is modelled separately by `initCommand`.) -/
def bindCommand (env : EnvT) :
    List Str → command → Value → command × Except BindErr (List Str × Value)
  | args, cmd, .vsub fields =>
    (match args with
    | a0 :: rest =>
      match cmd.SubCommands.find? (fun s => s.Command == a0) with
      | some s =>
        match bindCommand env rest s (getField fields s.Index) with
        | (node, .ok (ra, v)) => (node, .ok (ra, .vsub (fields.set s.Index v)))
        | (node, .error e) => (node, .error e)
      | none => (cmd, bindFlags env cmd args fields)
    | [] => (cmd, bindFlags env cmd [] fields))
  | _, cmd, _ => (cmd, .error .typeMismatch)
  termination_by structural args _ _ => args

/-- The Go `App.Bind(dst, args)`: run `bindCommand` against the cached
schema; on any error hand the caller back its original argument list
unchanged (the Go code returns `args`, not the binder's remainder). -/
def Bind (env : EnvT) (cmd : command) (args : List Str) (dst : Value) :
    List Str × command × Except BindErr Value :=
  match bindCommand env args cmd dst with
  | (node, .error e) => (args, node, .error e)
  | (node, .ok (ra, v)) => (ra, node, .ok v)

/-! ### Help rendering and memoized initialization -/

/-- The padded label column for one flag
(`"\t" + ("-alias, ")? + "--name "`). -/
def flagLabel (f : fieldMeta) : Str :=
  str ("\t") ++
    (match f.Alias with
    | some al => str ("-") ++ al ++ str (", ")
    | none => []) ++
    str ("--") ++ f.Name ++ str (" ")

/-- The synthetic help row label (`helpOption` constant). -/
def helpOption : Str := str ("\t-h, --help ")

/-- Label-column width for the options section: the running maximum
starts at the help row's length, plus 4. -/
def maxLabelLen (flags : List fieldMeta) : Nat :=
  (flags.foldl (fun m f => max m (flagLabel f).length) helpOption.length) + 4

/-- The required-flag placeholders appended to the usage line
(`--name <NAME>` for each required flag, in declaration order). -/
def usageRequired (flags : List fieldMeta) : Str :=
  (flags.map fun f =>
    if f.Required then
      str (" --") ++ f.Name ++ str (" <") ++ strUpper f.Name ++ str (">")
    else []).flatten

/-- One row of the options section. -/
def optionRow (maxLen : Nat) (f : fieldMeta) : Str :=
  flagLabel f ++ spaces (maxLen - (flagLabel f).length) ++ f.About ++ str (" ") ++
    (match f.Default with
    | some d => str ("[default: ") ++ d ++ str ("]")
    | none => []) ++
    (match f.Env with
    | some e => str (" [env: ") ++ e ++ str ("]")
    | none => []) ++
    (if f.Required then str (" (required)") else []) ++
    str ("\n")

/-- The options section, including the synthetic `-h, --help` row. -/
def optionsSection (flags : List fieldMeta) : Str :=
  str ("Options:\n") ++
    (flags.map (optionRow (maxLabelLen flags))).flatten ++
    helpOption ++ spaces (maxLabelLen flags - helpOption.length) ++
    str ("Print this help message and exit\n")

/-- The subcommand section; its label width is computed independently,
starting from 0. -/
def commandsSection (subs : List command) : Str :=
  let maxLen := (subs.foldl (fun m s => max m s.Command.length) 0) + 4
  str ("Commands:\n") ++
    (subs.map fun s =>
      str ("\t") ++ s.Command ++ spaces (maxLen - s.Command.length) ++
        (s.About.getD []) ++ str ("\n")).flatten

/-- The body of the once-gate of `command.init`: the full help text of
one node.  `path` is the chain of ancestor command names (root first),
reconstructed in Go from the `Parent` back-references; a root node has
an empty path and prints just its own name, which coincides with the
joined path. -/
def renderHelp (path : List Str) (a : command) : Str :=
  str ("Usage: \n\t") ++ List.intercalate (str (" ")) (path ++ [a.Command]) ++
    (if a.SubCommands.isEmpty then [] else str (" <COMMAND>")) ++
    (if a.Flags.isEmpty then []
      else str (" [OPTIONS]") ++ usageRequired a.Flags) ++
    str (" [ARGUEMENTS]\n\n") ++
    (if a.Flags.isEmpty then [] else optionsSection a.Flags) ++
    str ("\n") ++
    (if a.SubCommands.isEmpty then [] else commandsSection a.SubCommands)

mutual
/-- The Go `command.init()`: the `sync.Once` gate renders and stores
the help text exactly once (`Help = none` models a gate that has not
fired); every call then links each subcommand to its parent and
recursively initializes it, the parent linkage appearing here as the
ancestor path pushed down the recursion. -/
def initCommand (path : List Str) : command → command
  | .mk nm idx au ab la ver flags subs help =>
    .mk nm idx au ab la ver flags
      (initSubs (path ++ [nm]) subs)
      (some (match help with
        | some h => h
        | none => renderHelp path (.mk nm idx au ab la ver flags subs help)))

/-- The subcommand loop at the bottom of `command.init()`. -/
def initSubs (path : List Str) : List command → List command
  | [] => []
  | s :: ss => initCommand path s :: initSubs path ss
end

/-! ### Concrete schemas used as witnesses -/

/-- A root command with the given flags and no subcommands. -/
def mkFlagsCmd (fs : List fieldMeta) : command :=
  .mk (str ("app")) 0 none none none none fs [] none

/-- A plain optional string flag `--name`. -/
def fmName : fieldMeta :=
  ⟨str ("name"), str ("string"), [], 0, none, none, none, false⟩

/-- A string flag `--name` with default `DFLT`. -/
def fmNameD : fieldMeta :=
  ⟨str ("name"), str ("string"), [], 0, some (str ("DFLT")), none, none, false⟩

/-- A bool flag `--dev` with default text `true`. -/
def fmDevB : fieldMeta :=
  ⟨str ("dev"), str ("bool"), [], 0, some (str ("true")), none, none, false⟩

/-- A required string flag `--name`. -/
def fmReq : fieldMeta :=
  ⟨str ("name"), str ("string"), [], 0, none, none, none, true⟩

/-- A string flag with both an environment binding and a default. -/
def fmEnvW : fieldMeta :=
  ⟨str ("name"), str ("string"), [], 0, some (str ("defV")), some (str ("NAME")), none, false⟩

/-- An environment carrying `NAME=envV`. -/
def envW : EnvT := [(str ("NAME"), str ("envV"))]

/-- A bool flag `--verbose` with alias `v`. -/
def fmBoolW : fieldMeta :=
  ⟨str ("verbose"), str ("bool"), [], 0, none, none, some (str ("v")), false⟩

/-- A required int flag `--a`. -/
def fmAInt : fieldMeta :=
  ⟨str ("a"), str ("int"), [], 0, none, none, none, true⟩

/-- A subcommand `add` living at parent field index 2. -/
def cmdAdd : command :=
  .mk (str ("add")) 2 none none none none [fmAInt] [] none

/-- A root command with one flag and the `add` subcommand. -/
def cmdPar : command :=
  .mk (str ("root")) 0 none none none none [fmName] [cmdAdd] none

def cmdEmpty : command := mkFlagsCmd []
def cmdName : command := mkFlagsCmd [fmName]
def cmdNameD : command := mkFlagsCmd [fmNameD]
def cmdDevB : command := mkFlagsCmd [fmDevB]
def cmdReq : command := mkFlagsCmd [fmReq]

/-- Absence of an environment value for a flag: either no
`envVariable` is declared, or the declared one is not set. -/
def envAbsent (env : EnvT) (fm : fieldMeta) : Prop :=
  fm.Env = none ∨ ∃ e, fm.Env = some e ∧ lookupEnv env e = none

/-! ### Helper lemmas -/

theorem hasPfx_bang (s : Str) : hasPfx (str ("!")) s = headBang s := by
  cases s <;> simp [hasPfx, str, List.isPrefixOf, headBang]

theorem trimBang_of_not_bang (s : Str) (h : headBang s = false) :
    trimBang s = s := by
  simp [trimBang, hasPfx_bang, h]

theorem hasPfx_ddash_cons (s : Str) :
    hasPfx (str ("--")) ('-' :: s) = headDash s := by
  cases s <;> simp [hasPfx, str, List.isPrefixOf, headDash]

theorem flagLooking_dash (s : Str) : flagLooking ('-' :: s) = true := by
  simp [flagLooking, hasPfx, str, List.isPrefixOf]

theorem hasPfx_dd (s : Str) : hasPfx (str ("--")) ('-' :: '-' :: s) = true := by
  simp [hasPfx, str, List.isPrefixOf]

theorem hasPfx_d (s : Str) : hasPfx (str ("-")) ('-' :: s) = true := by
  simp [hasPfx, str, List.isPrefixOf]

theorem isPrefixOf_dash (s : Str) : ['-'].isPrefixOf s = headDash s := by
  cases s <;> simp [List.isPrefixOf, headDash]

theorem list_find?_first {α : Type} (p : α → Bool) (pre post : List α) (s : α)
    (hpre : ∀ t ∈ pre, p t = false) (hs : p s = true) :
    (pre ++ s :: post).find? p = some s := by
  induction pre with
  | nil => simp [List.find?, hs]
  | cons t ts ih =>
    have ht : p t = false := hpre t (by simp)
    rw [List.cons_append]
    simp only [List.find?, ht]
    exact ih fun u hu => hpre u (by simp [hu])

/-! ### Claims -/

/-- C5: the integer coercion sniffs the radix from the two-character
prefixes `0x`/`0X`, `0b`/`0B`, `0o`/`0O` (defaulting to base 10), so
`0x2A`, `0b101010`, `0o52` and `42` all coerce to 42, and unparsable
text fails with `CanNotParse` -- but although a leading `+`/`-` sign
before the prefix is recognized by the sniffer, the code then strips
only two characters, handing e.g. `x2A` to the base-16 parser, so the
signed inputs the claim says coerce to the negated value in fact fail
with `CanNotParse` (plain base-10 signs still work). -/
theorem C5_signed_radix_code_bug :
    setValue (.vint 0) (str ("0x2A")) = .ok (.vint 42) ∧
    setValue (.vint 0) (str ("0b101010")) = .ok (.vint 42) ∧
    setValue (.vint 0) (str ("0o52")) = .ok (.vint 42) ∧
    setValue (.vint 0) (str ("42")) = .ok (.vint 42) ∧
    setValue (.vuint 0) (str ("0x2A")) = .ok (.vuint 42) ∧
    setValue (.vint 0) (str ("-42")) = .ok (.vint (-42)) ∧
    setValue (.vint 0) (str ("-0x2A")) = .error .canNotParse ∧
    setValue (.vint 0) (str ("+0x2A")) = .error .canNotParse ∧
    setValue (.vint 0) (str ("zz")) = .error .canNotParse :=
  ⟨rfl, rfl, rfl, rfl, rfl, rfl, rfl, rfl, rfl⟩

/-- C4: when the scan consumed at least one token before stopping, the
remainder is exactly the first non-flag-looking token and everything
after it, verbatim (and empty when every token was consumed) -- but
when the very first token is already non-flag-looking, `MaxIndex` is
still at its initial 0 and `args[MaxIndex+1:]` drops that token: on
`["extra","args"]` with an empty schema the binder returns `["args"]`
instead of the claimed `["extra","args"]`. -/
theorem C4_remainder_code_bug :
    bindCommand [] [str ("extra"), str ("args")] cmdEmpty (.vsub []) =
      (cmdEmpty, .ok ([str ("args")], .vsub [])) ∧
    bindCommand [] [str ("--name"), str ("X"), str ("extra"), str ("args")]
        cmdName (.vsub [.vstr []]) =
      (cmdName, .ok ([str ("extra"), str ("args")],
        .vsub [.vstr (str ("X"))])) ∧
    bindCommand [] [str ("--name"), str ("X")] cmdName (.vsub [.vstr []]) =
      (cmdName, .ok ([], .vsub [.vstr (str ("X"))])) ∧
    bindCommand [] [] cmdEmpty (.vsub []) = (cmdEmpty, .ok ([], .vsub [])) :=
  ⟨rfl, rfl, rfl, rfl⟩

/-- C10: whenever `bindCommand` fails, the public `Bind` returns the
caller's original token list unchanged (together with the failing
node and the error), never a partial remainder. -/
theorem C10_bind_error_returns_original_args
    (env : EnvT) (cmd : command) (args : List Str) (dst : Value)
    (node : command) (e : BindErr)
    (h : bindCommand env args cmd dst = (node, .error e)) :
    Bind env cmd args dst = (args, node, .error e) := by
  simp [Bind, h]

theorem C10_witness :
    Bind [] cmdReq [] (.vsub [.vstr []]) =
      ([], cmdReq, .error (.missingRequired (str ("name")))) :=
  C10_bind_error_returns_original_args [] cmdReq [] (.vsub [.vstr []])
    cmdReq (.missingRequired (str ("name"))) rfl

/-- C8: during the flag scan, a flag-looking token matching no
descriptor's name or alias fails with `ErrHelp` exactly when it is
literally `--help` or `-h`; every other unmatched flag-looking token
is silently skipped and scanning continues; and a scan failure is the
failure of the whole flag phase. -/
theorem C8_unmatched_flag_help (flags : List fieldMeta) (rest : List Str)
    (i maxIdx : Nat) (fields : List Value) (written : List Str) (tok : Str)
    (hf : flagLooking tok = true) (hm : matchTok flags tok = none) :
    ((tok == str ("--help") || tok == str ("-h")) = true →
      scanFlags flags (tok :: rest) i fields written maxIdx = .error .help) ∧
    ((tok == str ("--help") || tok == str ("-h")) = false →
      scanFlags flags (tok :: rest) i fields written maxIdx =
        scanFlags flags rest (i + 1) fields written i) ∧
    (∀ (env : EnvT) (cmd : command) (args : List Str) (fs : List Value)
        (e : BindErr),
      scanFlags cmd.Flags args 0 fs [] 0 = .error e →
      bindFlags env cmd args fs = .error e) := by
  refine ⟨fun h => ?_, fun h => ?_, fun env cmd args fs e hs => ?_⟩
  · simp [scanFlags, hf, hm, h]
  · simp [scanFlags, hf, hm, h]
  · simp [bindFlags, hs]

theorem C8_witness :
    scanFlags [] [str ("--help")] 0 [] [] 0 = .error .help ∧
    scanFlags [] [str ("--zzz"), str ("x")] 0 [] [] 0 =
      scanFlags [] [str ("x")] 1 [] [] 0 ∧
    bindFlags [] cmdEmpty [str ("--help")] [] = .error .help :=
  ⟨(C8_unmatched_flag_help [] [] 0 0 [] [] (str ("--help")) rfl rfl).1 rfl,
   (C8_unmatched_flag_help [] [str ("x")] 0 0 [] [] (str ("--zzz")) rfl rfl).2.1 rfl,
   (C8_unmatched_flag_help [] [] 0 0 [] [] (str ("--help")) rfl rfl).2.2 []
     cmdEmpty [str ("--help")] [] .help rfl⟩

/-- C3: with at least one token left, if the first token equals the
name of a child node (the first such child, earlier non-matching
children being skipped), binding recurses into that child with the
remaining tokens and the instance sub-field at the child's index --
the parent's own flags are not processed, and the parent instance is
touched only at that sub-field; if the first token matches no child
name, the flag phase runs at the current level on the full token list,
so no subcommand match is ever attempted past position 0. -/
theorem C3_subcommand_dispatch (env : EnvT) (cmd : command) (a0 : Str)
    (rest : List Str) (fields : List Value) :
    (∀ (s : command) (pre post : List command),
      cmd.SubCommands = pre ++ s :: post →
      (∀ t ∈ pre, (t.Command == a0) = false) → s.Command = a0 →
      bindCommand env (a0 :: rest) cmd (.vsub fields) =
        (match bindCommand env rest s (getField fields s.Index) with
         | (node, .ok (ra, v)) => (node, .ok (ra, .vsub (fields.set s.Index v)))
         | (node, .error e) => (node, .error e))) ∧
    ((∀ t ∈ cmd.SubCommands, (t.Command == a0) = false) →
      bindCommand env (a0 :: rest) cmd (.vsub fields) =
        (cmd, bindFlags env cmd (a0 :: rest) fields)) := by
  constructor
  · intro s pre post hsubs hpre hs
    have hfind : cmd.SubCommands.find? (fun t => t.Command == a0) = some s := by
      rw [hsubs]
      exact list_find?_first _ pre post s hpre (by simp [hs])
    simp [bindCommand, hfind]
  · intro hall
    have hfind : cmd.SubCommands.find? (fun t => t.Command == a0) = none := by
      rw [List.find?_eq_none]
      intro x hx
      simp [hall x hx]
    simp [bindCommand, hfind]

theorem C3_witness :
    bindCommand [] [str ("add"), str ("--a"), str ("7")] cmdPar
      (.vsub [.vstr [], .vint 0, .vsub [.vint 0]]) =
    (cmdAdd, .ok ([], .vsub [.vstr [], .vint 0, .vsub [.vint 7]])) := by
  rw [(C3_subcommand_dispatch [] cmdPar (str ("add")) [str ("--a"), str ("7")]
    [.vstr [], .vint 0, .vsub [.vint 0]]).1 cmdAdd [] [] rfl (by simp) rfl]
  rfl

/-- C6: for a boolean-kind flag, `--flag` (and `-alias`) sets the
field true and `--!flag` (and `-!alias`) sets it false, in all four
cases without consuming a following value token, and in all four
cases the written-set entry is `--` plus the plain canonical name, so
the positive and negative forms are indistinguishable there. -/
theorem C6_bool_negation (fm : fieldMeta) (al : Str) (rest : List Str)
    (i maxIdx : Nat) (fields : List Value) (written : List Str)
    (hb : fm.Kind = str ("bool")) (hn : headBang fm.Name = false)
    (ha : fm.Alias = some al) (hna : headBang al = false)
    (hd : headDash al = false) :
    scanFlags [fm] (('-' :: '-' :: fm.Name) :: rest) i fields written maxIdx =
      scanFlags [fm] rest (i + 1) (fields.set fm.Index (.vbool true))
        (written ++ [str ("--") ++ fm.Name]) i ∧
    scanFlags [fm] (('-' :: '-' :: '!' :: fm.Name) :: rest) i fields written maxIdx =
      scanFlags [fm] rest (i + 1) (fields.set fm.Index (.vbool false))
        (written ++ [str ("--") ++ fm.Name]) i ∧
    scanFlags [fm] (('-' :: al) :: rest) i fields written maxIdx =
      scanFlags [fm] rest (i + 1) (fields.set fm.Index (.vbool true))
        (written ++ [str ("--") ++ fm.Name]) i ∧
    scanFlags [fm] (('-' :: '!' :: al) :: rest) i fields written maxIdx =
      scanFlags [fm] rest (i + 1) (fields.set fm.Index (.vbool false))
        (written ++ [str ("--") ++ fm.Name]) i := by
  have hdb : (('-' : Char) == '!') = false := by decide
  refine ⟨?_, ?_, ?_, ?_⟩
  · have hmt : matchTok [fm] ('-' :: '-' :: fm.Name) = some fm := by
      simp [matchTok, findFlag, hasPfx_dd, hasPfx_d,
        trimBang_of_not_bang _ hn, List.find?]
    simp [scanFlags, flagLooking_dash, hmt, hb, rawName, hasPfx,
      List.isPrefixOf, str, hn]
  · have hmt : matchTok [fm] ('-' :: '-' :: '!' :: fm.Name) = some fm := by
      simp [matchTok, findFlag, hasPfx_dd, hasPfx_d, trimBang, hasPfx_bang,
        headBang, List.find?]
    simp [scanFlags, flagLooking_dash, hmt, hb, rawName, hasPfx,
      List.isPrefixOf, str, headBang]
  · have hmt : matchTok [fm] ('-' :: al) = some fm := by
      simp [matchTok, findFlag, hasPfx_ddash_cons, hd, hasPfx_d,
        trimBang_of_not_bang _ hna, List.find?, ha]
    simp [scanFlags, flagLooking_dash, hmt, hb, rawName, hasPfx,
      List.isPrefixOf, str, isPrefixOf_dash, hd, hna]
  · have hmt : matchTok [fm] ('-' :: '!' :: al) = some fm := by
      simp [matchTok, findFlag, hasPfx_ddash_cons, headDash, hdb, hasPfx_d,
        trimBang, hasPfx_bang, headBang, List.find?, ha]
    simp [scanFlags, flagLooking_dash, hmt, hb, rawName, hasPfx,
      List.isPrefixOf, str, hdb, headBang]

theorem C6_witness :
    scanFlags [fmBoolW] [str ("--verbose")] 0 [.vbool false] [] 0 =
      scanFlags [fmBoolW] [] 1 [.vbool true] [str ("--verbose")] 0 ∧
    scanFlags [fmBoolW] [str ("--!verbose")] 0 [.vbool false] [] 0 =
      scanFlags [fmBoolW] [] 1 [.vbool false] [str ("--verbose")] 0 ∧
    scanFlags [fmBoolW] [str ("-v")] 0 [.vbool false] [] 0 =
      scanFlags [fmBoolW] [] 1 [.vbool true] [str ("--verbose")] 0 ∧
    scanFlags [fmBoolW] [str ("-!v")] 0 [.vbool false] [] 0 =
      scanFlags [fmBoolW] [] 1 [.vbool false] [str ("--verbose")] 0 := by
  have h := C6_bool_negation fmBoolW (str ("v")) [] 0 0 [.vbool false] []
    rfl rfl rfl rfl rfl
  exact ⟨h.1, h.2.1, h.2.2.1, h.2.2.2⟩

theorem cons_beq_self_false (c : Char) (l : Str) : ((c :: l) == l) = false := by
  rw [beq_eq_false_iff_ne]
  exact List.cons_ne_self c l

/-- C2: the claim that every consumed flag is recorded in the written
set under its canonical flag name is false: a non-boolean flag is
recorded under the raw dash-prefixed token.  Concretely, `--!name X`
against a string flag `name` with default `DFLT` is matched and
consumed by the scan (the field becomes `X` and the raw token
`--!name` is recorded), yet the resolution pass does not recognize the
entry and overwrites the field with the default. -/
theorem C2_counterexample_raw_token_written :
    (bindCommand [] [str ("--!name"), str ("X")] cmdNameD (.vsub [.vstr []])).2 =
      .ok ([], .vsub [.vstr (str ("DFLT"))]) ∧
    scanFlags [fmNameD] [str ("--!name"), str ("X")] 0 [.vstr []] [] 0 =
      .ok ([.vstr (str ("X"))], [str ("--!name")], 1) ∧
    writtenFound [str ("--!name")] fmNameD = false :=
  ⟨rfl, rfl, rfl⟩

/-- C2 (amended): only boolean-kind flags are recorded under `--` plus
the canonical name; every other consumed flag is recorded under the
raw dash-prefixed token.  The resolution pass re-derives membership
from the raw prefixes, so it still recognizes a plain `--name` long
token and a plain `-alias` short token as written, but it does not
recognize a `!`-prefixed token recorded for a non-boolean flag, and
env/default/required are then applied despite the explicit match. -/
theorem C2_amended_written_set :
    (∀ fm : fieldMeta, writtenFound [str ("--") ++ fm.Name] fm = true) ∧
    (∀ (fm : fieldMeta) (al : Str), fm.Alias = some al → headDash al = false →
      writtenFound [str ("-") ++ al] fm = true) ∧
    (∀ fm : fieldMeta, writtenFound [str ("--!") ++ fm.Name] fm = false) ∧
    (∀ (flags : List fieldMeta) (fm : fieldMeta) (tok value : Str)
        (rest2 : List Str) (i maxIdx : Nat) (fields : List Value)
        (written : List Str) (w : Value),
      flagLooking tok = true → matchTok flags tok = some fm →
      (fm.Kind == str ("bool")) = false →
      setValue (getField fields fm.Index) value = .ok w →
      scanFlags flags (tok :: value :: rest2) i fields written maxIdx =
        scanFlags flags rest2 (i + 2) (fields.set fm.Index w)
          (written ++ [tok]) (i + 1)) := by
  refine ⟨?_, ?_, ?_, ?_⟩
  · intro fm
    simp [writtenFound, hasPfx, str, List.isPrefixOf]
  · intro fm al ha hd
    cases al with
    | nil => simp [writtenFound, hasPfx, str, List.isPrefixOf, ha]
    | cons c cs =>
      simp only [headDash] at hd
      simp [writtenFound, hasPfx, str, List.isPrefixOf, ha, hd]
      exact Or.inl (beq_eq_false_iff_ne.mp hd)
  · intro fm
    simp [writtenFound, hasPfx, str, List.isPrefixOf, cons_beq_self_false]
  · intro flags fm tok value rest2 i maxIdx fields written w hf hm hk hset
    simp [scanFlags, hf, hm, hk, hset]

theorem C2_amended_witness :
    writtenFound [str ("--name")] fmName = true ∧
    writtenFound [str ("-v")] fmBoolW = true ∧
    writtenFound [str ("--!name")] fmName = false ∧
    scanFlags [fmName] [str ("--name"), str ("X")] 0 [.vstr []] [] 0 =
      scanFlags [fmName] [] 2 [.vstr (str ("X"))] [str ("--name")] 1 :=
  ⟨C2_amended_written_set.1 fmName,
   C2_amended_written_set.2.1 fmBoolW (str ("v")) rfl rfl,
   C2_amended_written_set.2.2.1 fmName,
   C2_amended_written_set.2.2.2 [fmName] fmName (str ("--name")) (str ("X"))
     [] 0 0 [.vstr []] [] (.vstr (str ("X"))) rfl rfl rfl rfl⟩

/-- C1: the claim that a flag with a declared default coerces the
default into the field is false for boolean-kind flags: the Go
`setValue` switch has no `reflect.Bool` case, so the default text
`true` of an absent bool flag is silently dropped and the field stays
at its zero `false`, although the truthy parse the spec prescribes
(`strconv.ParseBool`, used elsewhere in the same file) maps `true` to
`true`. -/
theorem C1_counterexample_bool_default_ignored :
    bindCommand [] [] cmdDevB (.vsub [.vbool false]) =
      (cmdDevB, .ok ([], .vsub [.vbool false])) ∧
    goParseBool (str ("true")) = some true :=
  ⟨rfl, rfl⟩

/-- C1 (amended): for every flag descriptor the resolution order is as
claimed -- a flag found in the written set is skipped, else a declared
and present environment variable is coerced into the field (taking
precedence over any declared default, and failing the bind on a parse
error), else a declared default is coerced, else a required flag fails
the bind, else the field is untouched -- with the proviso that the
coercion path writes nothing for boolean-kind fields (the `setValue`
switch has no bool case), so bool env/default texts are ignored
rather than parsed. -/
theorem C1_amended_precedence (env : EnvT) (fm : fieldMeta)
    (fields : List Value) :
    (∀ written, writtenFound written fm = true →
      resolveFlags env written [fm] fields = .ok fields) ∧
    (∀ e v w, fm.Env = some e → lookupEnv env e = some v →
      setValue (getField fields fm.Index) v = .ok w →
      bindCommand env [] (mkFlagsCmd [fm]) (.vsub fields) =
        (mkFlagsCmd [fm], .ok ([], .vsub (fields.set fm.Index w)))) ∧
    (∀ e v, fm.Env = some e → lookupEnv env e = some v →
      setValue (getField fields fm.Index) v = .error .canNotParse →
      bindCommand env [] (mkFlagsCmd [fm]) (.vsub fields) =
        (mkFlagsCmd [fm], .error (.canNotParseEnv e v fm.Kind))) ∧
    (∀ d w, envAbsent env fm → fm.Default = some d →
      setValue (getField fields fm.Index) d = .ok w →
      bindCommand env [] (mkFlagsCmd [fm]) (.vsub fields) =
        (mkFlagsCmd [fm], .ok ([], .vsub (fields.set fm.Index w)))) ∧
    (envAbsent env fm → fm.Default = none → fm.Required = true →
      bindCommand env [] (mkFlagsCmd [fm]) (.vsub fields) =
        (mkFlagsCmd [fm], .error (.missingRequired fm.Name))) ∧
    (envAbsent env fm → fm.Default = none → fm.Required = false →
      bindCommand env [] (mkFlagsCmd [fm]) (.vsub fields) =
        (mkFlagsCmd [fm], .ok ([], .vsub fields))) ∧
    (∀ (b : Bool) (v : Str), setValue (.vbool b) v = .ok (.vbool b)) := by
  have hwf : writtenFound [] fm = false := rfl
  refine ⟨?_, ?_, ?_, ?_, ?_, ?_, fun b v => rfl⟩
  · intro written hw
    simp [resolveFlags, hw]
  · intro e v w he hv hset
    simp [bindCommand, bindFlags, mkFlagsCmd, command.Flags, scanFlags,
      resolveFlags, hwf, resolveFlag, he, hv, hset]
  · intro e v he hv hset
    simp [bindCommand, bindFlags, mkFlagsCmd, command.Flags, scanFlags,
      resolveFlags, hwf, resolveFlag, he, hv, hset]
  · intro d w habs hd hset
    rcases habs with hnone | ⟨e, he, hl⟩
    · simp [bindCommand, bindFlags, mkFlagsCmd, command.Flags, scanFlags,
        resolveFlags, hwf, resolveFlag, hnone, resolveFlagDefault, hd, hset]
    · simp [bindCommand, bindFlags, mkFlagsCmd, command.Flags, scanFlags,
        resolveFlags, hwf, resolveFlag, he, hl, resolveFlagDefault, hd, hset]
  · intro habs hd hreq
    rcases habs with hnone | ⟨e, he, hl⟩
    · simp [bindCommand, bindFlags, mkFlagsCmd, command.Flags, scanFlags,
        resolveFlags, hwf, resolveFlag, hnone, resolveFlagDefault, hd, hreq]
    · simp [bindCommand, bindFlags, mkFlagsCmd, command.Flags, scanFlags,
        resolveFlags, hwf, resolveFlag, he, hl, resolveFlagDefault, hd, hreq]
  · intro habs hd hreq
    rcases habs with hnone | ⟨e, he, hl⟩
    · simp [bindCommand, bindFlags, mkFlagsCmd, command.Flags, scanFlags,
        resolveFlags, hwf, resolveFlag, hnone, resolveFlagDefault, hd, hreq]
    · simp [bindCommand, bindFlags, mkFlagsCmd, command.Flags, scanFlags,
        resolveFlags, hwf, resolveFlag, he, hl, resolveFlagDefault, hd, hreq]

theorem C1_amended_witness :
    bindCommand envW [] (mkFlagsCmd [fmEnvW]) (.vsub [.vstr []]) =
      (mkFlagsCmd [fmEnvW], .ok ([], .vsub [.vstr (str ("envV"))])) ∧
    resolveFlags envW [str ("--name")] [fmEnvW] [.vstr []] = .ok [.vstr []] ∧
    bindCommand [] [] (mkFlagsCmd [fmReq]) (.vsub [.vstr []]) =
      (mkFlagsCmd [fmReq], .error (.missingRequired (str ("name")))) :=
  ⟨(C1_amended_precedence envW fmEnvW [.vstr []]).2.1 (str ("NAME"))
      (str ("envV")) (.vstr (str ("envV"))) rfl rfl rfl,
   (C1_amended_precedence envW fmEnvW [.vstr []]).1 [str ("--name")] rfl,
   (C1_amended_precedence [] fmReq [.vstr []]).2.2.2.2.1
      (Or.inl rfl) rfl rfl⟩

/-- C7: the sequence coercion splits on commas, resizes the
destination to the split count, and recursively coerces each element
by position (so `a,b,c` gives three elements in order and `a,,c`
keeps a middle empty string); the first element failure aborts the
element loop and is propagated as the failure of the whole sequence
assignment. -/
theorem C7_sequence_coercion :
    (∀ (f : Str → Except setErr Value) (ps : List Str) (vs : List Value),
      setElemsWith f ps = .ok vs → vs.length = ps.length) ∧
    (∀ (f : Str → Except setErr Value) (ps : List Str) (vs : List Value),
      setElemsWith f ps = .ok vs → ∀ i : Nat,
        vs.get? i = (ps.get? i).bind fun p => (f p).toOption) ∧
    (∀ (f : Str → Except setErr Value) (ps : List Str) (e : setErr),
      setElemsWith f ps = .error e → ∃ p ∈ ps, f p = .error e) ∧
    setValue (.vlist .kstr []) (str ("a,b,c")) =
      .ok (.vlist .kstr [.vstr (str ("a")), .vstr (str ("b")),
        .vstr (str ("c"))]) ∧
    setValue (.vlist .kstr []) (str ("a,,c")) =
      .ok (.vlist .kstr [.vstr (str ("a")), .vstr [], .vstr (str ("c"))]) ∧
    setValue (.vlist .kint []) (str ("1,x,3")) = .error .canNotParse := by
  refine ⟨?_, ?_, ?_, rfl, rfl, rfl⟩
  · intro f ps
    induction ps with
    | nil =>
      intro vs h
      simp [setElemsWith] at h
      simp [← h]
    | cons p ps ih =>
      intro vs h
      cases hfp : f p with
      | error e => rw [setElemsWith, hfp] at h; exact absurd h (by simp)
      | ok v =>
        rw [setElemsWith, hfp] at h
        cases hrec : setElemsWith f ps with
        | error e => rw [hrec] at h; exact absurd h (by simp)
        | ok vs2 =>
          rw [hrec] at h
          cases h
          simp [ih vs2 hrec]
  · intro f ps
    induction ps with
    | nil =>
      intro vs h i
      simp [setElemsWith] at h
      subst h
      simp
    | cons p ps ih =>
      intro vs h i
      cases hfp : f p with
      | error e => rw [setElemsWith, hfp] at h; exact absurd h (by simp)
      | ok v =>
        rw [setElemsWith, hfp] at h
        cases hrec : setElemsWith f ps with
        | error e => rw [hrec] at h; exact absurd h (by simp)
        | ok vs2 =>
          rw [hrec] at h
          cases h
          cases i with
          | zero => simp [hfp, Except.toOption]
          | succ j => simpa using ih vs2 hrec j
  · intro f ps
    induction ps with
    | nil =>
      intro e h
      simp [setElemsWith] at h
    | cons p ps ih =>
      intro e h
      cases hfp : f p with
      | error e2 =>
        rw [setElemsWith, hfp] at h
        cases h
        exact ⟨p, by simp, hfp⟩
      | ok v =>
        rw [setElemsWith, hfp] at h
        cases hrec : setElemsWith f ps with
        | error e2 =>
          rw [hrec] at h
          cases h
          obtain ⟨q, hq, hfq⟩ := ih e hrec
          exact ⟨q, by simp [hq], hfq⟩
        | ok vs2 => rw [hrec] at h; exact absurd h (by simp)

theorem C7_witness :
    [Value.vstr (str ("a")), Value.vstr (str ("b"))].length =
      [str ("a"), str ("b")].length ∧
    (∃ p ∈ [str ("x")], setValueK .kint p = .error .canNotParse) :=
  ⟨C7_sequence_coercion.1 (setValueK .kstr) [str ("a"), str ("b")]
      [Value.vstr (str ("a")), Value.vstr (str ("b"))] rfl,
   C7_sequence_coercion.2.2.1 (setValueK .kint) [str ("x")] .canNotParse rfl⟩

theorem initSubs_idem_of (p : List Str) (l : List command)
    (ih : ∀ s ∈ l, ∀ q, initCommand q (initCommand q s) = initCommand q s) :
    initSubs p (initSubs p l) = initSubs p l := by
  induction l with
  | nil => simp [initSubs]
  | cons s ss ihl =>
    simp only [initSubs]
    rw [ih s (by simp) p, ihl fun t ht q => ih t (by simp [ht]) q]

theorem initCommand_idem_aux :
    ∀ (n : Nat) (c : command), sizeOf c ≤ n →
      ∀ p, initCommand p (initCommand p c) = initCommand p c := by
  intro n
  induction n with
  | zero =>
    intro c hc p
    exfalso
    cases c with
    | mk nm idx au ab la ver flags subs help => simp at hc
  | succ n ih =>
    intro c hc p
    cases c with
    | mk nm idx au ab la ver flags subs help =>
      simp at hc
      simp only [initCommand]
      rw [command.mk.injEq]
      refine ⟨rfl, rfl, rfl, rfl, rfl, rfl, rfl, ?_, rfl⟩
      exact initSubs_idem_of _ subs fun s hs q =>
        ih s (by have := List.sizeOf_lt_of_mem hs; omega) q

/-- C9: per schema node, the help text is rendered lazily and
memoized exactly once: initializing twice equals initializing once
(so a second request returns the stored byte-identical string and the
renderer is not re-run), and the stored text is exactly the rendering
of the pristine node when the gate had not fired, the previously
stored text otherwise. -/
theorem C9_help_memoized_idempotent (p : List Str) (c : command) :
    initCommand p (initCommand p c) = initCommand p c ∧
    (initCommand p c).Help = some ((c.Help).getD (renderHelp p c)) ∧
    (initCommand p (initCommand p c)).Help = (initCommand p c).Help := by
  have hidem := initCommand_idem_aux (sizeOf c) c (le_refl _) p
  refine ⟨hidem, ?_, by rw [hidem]⟩
  cases c with
  | mk nm idx au ab la ver flags subs help =>
    cases help <;> simp [initCommand, command.Help, Option.getD, command.About]

end Broccoli
